import Mathlib

/-!
Shallow embedding of the Decentralized File Metadata Manager core
(src/models/fileMetadata.js, src/controllers/fileController.js,
src/utils/hashUtils.js).

Modelling conventions:
* Byte buffers are lists of naturals (Payload).
* The SHA-256 digest (a Node crypto primitive, external to the repository)
  is a parameter digest : Payload -> String, and the IPFS content store
  (an external service) is modelled by an address function
  ipfsAddr : Payload -> String for writes plus, for reads, a partial map
  fetch : String -> Option Payload; a list of pushed payloads records
  every content-store write, so "no content-store write" is provable.
* MongoDB documents are an in-memory list (Store); findOne is List.find?
  in natural order, and saving a fetched document writes it back over the
  first document matching the query that fetched it (saveFirst).  The
  unique index on fileId (fileMetadata.js line 49) makes an insert with a
  colliding fileId fail.
* Date-valued fields (createdAt, updatedAt, uploadedAt) carry no
  claim-relevant information and are omitted.
* JS parseInt is modelled by jsParseInt, returning none for NaN; a JS
  number that may be NaN is therefore an Option Int.
* JS falsiness of an optional string request field (undefined or the empty
  string) is jsFalsy.
-/

namespace FileManager

abbrev Payload := List Nat

structure FileVersion where
  versionNumber : Nat
  sha256Hash : String
  ipfsHash : String
  fileSize : Nat
  mimeType : String
  uploadedBy : String
deriving DecidableEq

structure FileMetadata where
  fileId : String
  originalFileName : String
  owner : String
  isActive : Bool
  versions : List FileVersion
  tags : List String
  description : String
deriving DecidableEq

abbrev Store := List FileMetadata

/-- The version fields passed to addVersion (everything but the number). -/
structure VersionData where
  sha256Hash : String
  ipfsHash : String
  fileSize : Nat
  mimeType : String
  uploadedBy : String
deriving DecidableEq

/-- fileMetadata.js 108-119: nextVersionNumber = versions.length + 1; push. -/
def FileMetadata.addVersion (f : FileMetadata) (d : VersionData) :
    FileVersion × FileMetadata :=
  let nextVersionNumber := f.versions.length + 1
  let newVersion : FileVersion :=
    { versionNumber := nextVersionNumber
      sha256Hash := d.sha256Hash
      ipfsHash := d.ipfsHash
      fileSize := d.fileSize
      mimeType := d.mimeType
      uploadedBy := d.uploadedBy }
  (newVersion, { f with versions := f.versions ++ [newVersion] })

def digitVal (c : Char) : Nat := c.toNat - 48

def decDigit? (c : Char) : Option Nat :=
  if c.isDigit then some (digitVal c) else none

def hexDigit? (c : Char) : Option Nat :=
  if c.isDigit then some (digitVal c)
  else if 'a' ≤ c && c ≤ 'f' then some (c.toNat - 97 + 10)
  else if 'A' ≤ c && c ≤ 'F' then some (c.toNat - 65 + 10)
  else none

def parseDigits (radix : Nat) (digit? : Char → Option Nat) (cs : List Char) :
    Option Nat :=
  let ds := cs.takeWhile (fun c => (digit? c).isSome)
  if ds.isEmpty then none
  else some (ds.foldl (fun a c => a * radix + (digit? c).getD 0) 0)

/-- JS parseInt applied to a string with no radix argument: skip leading
whitespace, optional sign, a 0x/0X prefix selects base 16, then the longest
leading run of digits; none models NaN (no digits at all). -/
def jsParseInt (s : String) : Option Int :=
  let cs := s.data.dropWhile (fun c => c.isWhitespace)
  let signed : Int × List Char :=
    match cs with
    | '-' :: rest => (-1, rest)
    | '+' :: rest => (1, rest)
    | _ => (1, cs)
  let sign := signed.1
  let body := signed.2
  match body with
  | '0' :: c :: rest =>
    if c == 'x' || c == 'X' then
      (parseDigits 16 hexDigit? rest).map (fun n => sign * (n : Int))
    else
      (parseDigits 10 decDigit? body).map (fun n => sign * (n : Int))
  | _ => (parseDigits 10 decDigit? body).map (fun n => sign * (n : Int))

/-- fileMetadata.js 122-124:
versions.find(v => v.versionNumber === parseInt(versionNumber)).
The argument is the already-parsed JS number (none = NaN): parseInt is the
identity on integer numbers and maps NaN to NaN, and strict equality with
NaN is always false, so the NaN case finds nothing. -/
def FileMetadata.getVersion (f : FileMetadata) (n : Option Int) :
    Option FileVersion :=
  match n with
  | some k => f.versions.find? (fun v => ((v.versionNumber : Int) == k))
  | none => none

/-- fileMetadata.js 127-130: null when empty, else versions[length - 1]. -/
def FileMetadata.getLatestVersion (f : FileMetadata) : Option FileVersion :=
  if f.versions.length == 0 then none
  else f.versions[f.versions.length - 1]?

/-- fileMetadata.js 150-155: findOne on versions.sha256Hash with
isActive: true. -/
def findByHash (st : Store) (h : String) : Option FileMetadata :=
  st.find? (fun f => f.isActive && f.versions.any (fun v => v.sha256Hash == h))

/-- The findOne filter used by the controller read/update paths:
fileId match and isActive: true. -/
def activePred (fid : String) (f : FileMetadata) : Bool :=
  f.fileId == fid && f.isActive

def findOneActive (st : Store) (fid : String) : Option FileMetadata :=
  st.find? (activePred fid)

/-- Persisting a fetched mongoose document: the saved state overwrites the
first stored document matching the query that fetched it. -/
def saveFirst (p : FileMetadata → Bool) (g : FileMetadata) :
    Store → Store
  | [] => []
  | f :: rest => if p f then g :: rest else f :: saveFirst p g rest

/-- hashUtils.js 53-61: recompute the digest and compare lowercased. -/
def verifyHash (digest : Payload → String) (buffer : Payload)
    (expectedHash : String) : Bool :=
  (digest buffer).toLower == expectedHash.toLower

/-- JS falsiness of an optional string field: undefined or empty. -/
def jsFalsy : Option String → Bool
  | none => true
  | some s => s == ""

/-- multer file object fields used by the controller. -/
structure UploadedFile where
  buffer : Payload
  originalname : String
  mimetype : String
  size : Nat
deriving DecidableEq

structure UploadReq where
  file : Option UploadedFile
  owner : String
  description : Option String
  tags : Option String
deriving DecidableEq

inductive UploadResult where
  | noFile
  | ownerRequired
  | duplicateContent (existingFileId : String) (existingHash : String)
  | persistError
  | created (fileId : String) (sha256Hash : String) (ipfsHash : String)
      (versionNumber : Nat)
deriving DecidableEq

/-- The document built at fileController.js 64-78: version 1 is the single
initial version, tags are the comma-split of a truthy tags field,
description defaults to the empty string. -/
def newFileMetadata (digest ipfsAddr : Payload → String) (fileId : String)
    (file : UploadedFile) (req : UploadReq) : FileMetadata :=
  { fileId := fileId
    originalFileName := file.originalname
    owner := req.owner
    isActive := true
    versions := [{ versionNumber := 1
                   sha256Hash := digest file.buffer
                   ipfsHash := ipfsAddr file.buffer
                   fileSize := file.size
                   mimeType := file.mimetype
                   uploadedBy := req.owner }]
    tags := if jsFalsy req.tags then []
            else ((req.tags.getD "").splitOn ",").map String.trim
    description := req.description.getD "" }

/-- fileController.js 14-106 (uploadFile = CreateFile).  The generated
fileId is an input: the controller calls generateFileId exactly once
(line 61) with no collision check or retry, so the single drawn identifier
is the only randomness consumed.  persistError is the save() rejection
path (caught at line 98 and mapped to a generic 500), which fires when the
unique index on fileId is violated. -/
def uploadFile (digest ipfsAddr : Payload → String) (fileId : String)
    (st : Store) (cs : List Payload) (req : UploadReq) :
    UploadResult × Store × List Payload :=
  match req.file with
  | none => (.noFile, st, cs)
  | some file =>
    if req.owner == "" then (.ownerRequired, st, cs)
    else
      let sha256Hash := digest file.buffer
      match findByHash st sha256Hash with
      | some existingFile =>
        (.duplicateContent existingFile.fileId sha256Hash, st, cs)
      | none =>
        let cs' := cs ++ [file.buffer]
        let fileMetadata := newFileMetadata digest ipfsAddr fileId file req
        if st.any (fun f => f.fileId == fileId) then (.persistError, st, cs')
        else (.created fileId sha256Hash (ipfsAddr file.buffer) 1,
              st ++ [fileMetadata], cs')

structure AppendReq where
  file : Option UploadedFile
  uploadedBy : String
deriving DecidableEq

inductive AppendResult where
  | noFile
  | uploadedByRequired
  | notFound
  | duplicateVersion (existingVersion : Nat)
  | added (versionNumber : Nat) (sha256Hash : String) (ipfsHash : String)
deriving DecidableEq

/-- The phase of addNewVersion between the findOne fetch and the save:
dedup check, content-store push, addVersion (fileController.js 266-296). -/
inductive AppendStep where
  | dup (existingVersion : Nat)
  | push (newVersion : FileVersion) (updated : FileMetadata) (payload : Payload)
deriving DecidableEq

def appendCompute (digest ipfsAddr : Payload → String) (f : FileMetadata)
    (file : UploadedFile) (uploadedBy : String) : AppendStep :=
  let sha256Hash := digest file.buffer
  match f.versions.find? (fun v => v.sha256Hash == sha256Hash) with
  | some existingVersion => .dup existingVersion.versionNumber
  | none =>
    let r := f.addVersion
      { sha256Hash := sha256Hash
        ipfsHash := ipfsAddr file.buffer
        fileSize := file.size
        mimeType := file.mimetype
        uploadedBy := uploadedBy }
    .push r.1 r.2 file.buffer

/-- fileController.js 234-323 (addNewVersion = AppendVersion). -/
def addNewVersion (digest ipfsAddr : Payload → String) (st : Store)
    (cs : List Payload) (fid : String) (req : AppendReq) :
    AppendResult × Store × List Payload :=
  match req.file with
  | none => (.noFile, st, cs)
  | some file =>
    if req.uploadedBy == "" then (.uploadedByRequired, st, cs)
    else
      match findOneActive st fid with
      | none => (.notFound, st, cs)
      | some f =>
        match appendCompute digest ipfsAddr f file req.uploadedBy with
        | .dup existingVersion => (.duplicateVersion existingVersion, st, cs)
        | .push newVersion f' payload =>
          (.added newVersion.versionNumber newVersion.sha256Hash
             newVersion.ipfsHash,
           saveFirst (activePred fid) f' st, cs ++ [payload])

/-- Two addNewVersion calls on the same fileId interleaved so that both
findOne fetches complete before either save: a legal Node event-loop
interleaving because the awaited content-store upload sits between the
fetch and the save (fileController.js 254, 286, 298).  Both calls run the
exact per-call body (appendCompute) on their own snapshot of the same
document; the saves then apply in order A, B. -/
def addNewVersionRace (digest ipfsAddr : Payload → String) (st : Store)
    (cs : List Payload) (fid : String) (fileA fileB : UploadedFile)
    (byA byB : String) :
    AppendResult × AppendResult × Store × List Payload :=
  match findOneActive st fid with
  | none => (.notFound, .notFound, st, cs)
  | some snapshot =>
    match appendCompute digest ipfsAddr snapshot fileA byA,
          appendCompute digest ipfsAddr snapshot fileB byB with
    | .dup eA, .dup eB => (.duplicateVersion eA, .duplicateVersion eB, st, cs)
    | .dup eA, .push nvB fB pB =>
      (.duplicateVersion eA,
       .added nvB.versionNumber nvB.sha256Hash nvB.ipfsHash,
       saveFirst (activePred fid) fB st, cs ++ [pB])
    | .push nvA fA pA, .dup eB =>
      (.added nvA.versionNumber nvA.sha256Hash nvA.ipfsHash,
       .duplicateVersion eB,
       saveFirst (activePred fid) fA st, cs ++ [pA])
    | .push nvA fA pA, .push nvB fB pB =>
      (.added nvA.versionNumber nvA.sha256Hash nvA.ipfsHash,
       .added nvB.versionNumber nvB.sha256Hash nvB.ipfsHash,
       saveFirst (activePred fid) fB (saveFirst (activePred fid) fA st),
       cs ++ [pA, pB])

inductive DownloadOutcome where
  | fileNotFound
  | versionNotFound (requested : Option Int)
  | noVersions
  | fetchError
  | integrityFailed
  | sent (v : FileVersion) (bytes : Payload)
deriving DecidableEq

/-- fileController.js 196-218: IPFS fetch, integrity check, send. -/
def sendVersion (digest : Payload → String) (fetch : String → Option Payload)
    (v : FileVersion) : DownloadOutcome :=
  match fetch v.ipfsHash with
  | none => .fetchError
  | some buf =>
    if verifyHash digest buf v.sha256Hash then .sent v buf
    else .integrityFailed

/-- fileController.js 158-228 (downloadFile).  A truthy versionIndex route
parameter selects getVersion on its parseInt value; a falsy one (absent)
selects the latest version. -/
def downloadFile (digest : Payload → String)
    (fetch : String → Option Payload) (st : Store) (fid : String)
    (versionIndex : Option String) : DownloadOutcome :=
  match findOneActive st fid with
  | none => .fileNotFound
  | some f =>
    if jsFalsy versionIndex then
      match f.getLatestVersion with
      | none => .noVersions
      | some v => sendVersion digest fetch v
    else
      match f.getVersion (jsParseInt (versionIndex.getD "")) with
      | none => .versionNotFound (jsParseInt (versionIndex.getD ""))
      | some v => sendVersion digest fetch v

inductive VerifyOutcome where
  | fileNotFound
  | versionNotFound
  | ipfsFetchFailed (fileId : String) (versionNumber : Option Int)
      (ipfsHash : String)
  | verified (isValid : Bool) (actualHash : String) (expectedHash : String)
      (fileSize : Nat) (expectedFileSize : Nat) (sizesMatch : Bool)
deriving DecidableEq

/-- fileController.js 329-403 (verifyFileIntegrity = VerifyIntegrity).
A verification mismatch is returned as the verified result (HTTP 200 with
the flags as data, line 376); only the IPFS fetch failure is an error
response (the inner catch, line 382). -/
def verifyFileIntegrity (digest : Payload → String)
    (fetch : String → Option Payload) (st : Store) (fid : String)
    (versionIndex : String) : VerifyOutcome :=
  match findOneActive st fid with
  | none => .fileNotFound
  | some f =>
    let versionNumber := jsParseInt versionIndex
    match f.getVersion versionNumber with
    | none => .versionNotFound
    | some v =>
      match fetch v.ipfsHash with
      | none => .ipfsFetchFailed fid versionNumber v.ipfsHash
      | some buf =>
        .verified (verifyHash digest buf v.sha256Hash) (digest buf)
          v.sha256Hash buf.length v.fileSize (buf.length == v.fileSize)

inductive DeleteResult where
  | ownerRequired
  | notFound
  | deleted
deriving DecidableEq

/-- The findOne filter of the delete path: fileId, owner and isActive all
have to match (fileController.js 474-478). -/
def delPred (fid ow : String) (f : FileMetadata) : Bool :=
  f.fileId == fid && f.owner == ow && f.isActive

/-- fileController.js 462-508 (deleteFile = SoftDelete). -/
def deleteFile (st : Store) (fid ow : String) : DeleteResult × Store :=
  if ow == "" then (.ownerRequired, st)
  else
    match st.find? (delPred fid ow) with
    | none => (.notFound, st)
    | some f =>
      (.deleted, saveFirst (delPred fid ow) { f with isActive := false } st)

inductive SearchOutcome where
  | invalidQuery
  | results (files : List FileMetadata) (totalCount : Nat)
deriving DecidableEq

/-- p occurs as a contiguous run inside l. -/
def listInfix (p : List Char) : List Char → Bool
  | [] => p.isEmpty
  | c :: rest => p.isPrefixOf (c :: rest) || listInfix p rest

/-- Case-insensitive substring test: the model of a literal
$regex pattern with option i (fileController.js 566-569). -/
def textMatches (q : String) (f : FileMetadata) : Bool :=
  listInfix q.toLower.data f.originalFileName.toLower.data
  || listInfix q.toLower.data f.description.toLower.data

/-- The mongo condition built by searchFiles: isActive plus each populated
filter (text on filename or description, owner equality, any-of tags). -/
def searchCond (q ow tg : Option String) (f : FileMetadata) : Bool :=
  f.isActive
  && (jsFalsy q || textMatches (q.getD "") f)
  && (jsFalsy ow || f.owner == ow.getD "")
  && (jsFalsy tg
      || (((tg.getD "").splitOn ",").map String.trim).any
           (fun t => f.tags.contains t))

/-- fileController.js 551-626 (searchFiles).  The createdAt sort is
dropped together with the timestamp fields; skip and limit follow the
source pagination. -/
def searchFiles (st : Store) (q ow tg : Option String) (page limit : Nat) :
    SearchOutcome :=
  if jsFalsy q && jsFalsy ow && jsFalsy tg then .invalidQuery
  else
    let matched := st.filter (searchCond q ow tg)
    let skip := (page - 1) * limit
    .results ((matched.drop skip).take limit) matched.length

/-- The mutating engine operations, for reachability statements.  The
fileId drawn by generateFileId during an upload is part of the operation. -/
inductive EngineOp where
  | upload (fileId : String) (req : UploadReq)
  | append (fileId : String) (req : AppendReq)
  | softDelete (fileId : String) (owner : String)
deriving DecidableEq

def stepOp (digest ipfsAddr : Payload → String)
    (s : Store × List Payload) (op : EngineOp) : Store × List Payload :=
  match op with
  | .upload fid req =>
    let r := uploadFile digest ipfsAddr fid s.1 s.2 req
    (r.2.1, r.2.2)
  | .append fid req =>
    let r := addNewVersion digest ipfsAddr s.1 s.2 fid req
    (r.2.1, r.2.2)
  | .softDelete fid ow =>
    let r := deleteFile s.1 fid ow
    (r.2, s.2)

/-- Running a sequence of engine operations from the empty deployment. -/
def runOps (digest ipfsAddr : Payload → String) (ops : List EngineOp) :
    Store × List Payload :=
  ops.foldl (stepOp digest ipfsAddr) ([], [])

/-- versions carry the numbers b+1, b+2, ... in order. -/
def numberedFrom : Nat → List FileVersion → Bool
  | _, [] => true
  | b, v :: vs => v.versionNumber == b + 1 && numberedFrom (b + 1) vs

/-- The version numbers of a file form the contiguous sequence
1..len(versions). -/
def contiguousFile (f : FileMetadata) : Bool :=
  numberedFrom 0 f.versions

/-- Store invariant: every stored file has contiguous version numbers. -/
def StoreOK (st : Store) : Prop := ∀ f ∈ st, contiguousFile f = true

/-!  Helper lemmas. -/

theorem numberedFrom_append (v : FileVersion) (vs : List FileVersion) (b : Nat)
    (h : numberedFrom b vs = true) (hv : v.versionNumber = b + vs.length + 1) :
    numberedFrom b (vs ++ [v]) = true := by
  induction vs generalizing b with
  | nil =>
    simp only [List.length_nil] at hv
    simp [numberedFrom, hv]
  | cons w ws ih =>
    simp only [numberedFrom, Bool.and_eq_true, beq_iff_eq] at h
    simp only [List.cons_append, numberedFrom, Bool.and_eq_true, beq_iff_eq]
    refine ⟨h.1, ih (b + 1) h.2 ?_⟩
    simp only [List.length_cons] at hv
    omega

theorem mem_saveFirst {p : FileMetadata → Bool} {g x : FileMetadata} :
    ∀ {l : Store}, x ∈ saveFirst p g l → x ∈ l ∨ x = g := by
  intro l
  induction l with
  | nil => intro h; simp [saveFirst] at h
  | cons f rest ih =>
    intro h
    by_cases hp : p f = true
    · simp only [saveFirst, hp, if_true, List.mem_cons] at h
      rcases h with h | h
      · exact Or.inr h
      · exact Or.inl (List.mem_cons_of_mem _ h)
    · simp only [saveFirst, hp, if_false, Bool.false_eq_true, ite_false,
        List.mem_cons] at h
      rcases h with h | h
      · exact Or.inl (by simp [h])
      · rcases ih h with h' | h'
        · exact Or.inl (List.mem_cons_of_mem _ h')
        · exact Or.inr h'

theorem exists_find? {α : Type} {p : α → Bool} {l : List α}
    (h : ∃ x ∈ l, p x = true) :
    ∃ y, l.find? p = some y ∧ p y = true ∧ y ∈ l := by
  induction l with
  | nil => simp at h
  | cons a l ih =>
    by_cases ha : p a = true
    · exact ⟨a, List.find?_cons_of_pos _ ha, ha, List.mem_cons_self a l⟩
    · have h' : ∃ x ∈ l, p x = true := by
        rcases h with ⟨x, hx, hpx⟩
        rcases List.mem_cons.mp hx with rfl | hx
        · exact absurd hpx ha
        · exact ⟨x, hx, hpx⟩
      rcases ih h' with ⟨y, hy, hpy, hmy⟩
      exact ⟨y, by rw [List.find?_cons_of_neg _ ha]; exact hy, hpy,
        List.mem_cons_of_mem _ hmy⟩

theorem addVersion_versions (f : FileMetadata) (d : VersionData) :
    (f.addVersion d).2.versions = f.versions ++ [(f.addVersion d).1] := rfl

theorem addVersion_number (f : FileMetadata) (d : VersionData) :
    (f.addVersion d).1.versionNumber = f.versions.length + 1 := rfl

theorem contiguous_addVersion {f : FileMetadata} (d : VersionData)
    (h : contiguousFile f = true) :
    contiguousFile (f.addVersion d).2 = true := by
  unfold contiguousFile at h ⊢
  rw [addVersion_versions]
  exact numberedFrom_append _ _ _ h (by simp [addVersion_number])

/-!  Branch equations of the engine operations. -/

section Equations

variable (digest ipfsAddr : Payload → String) (fid : String) (st : Store)
variable (cs : List Payload)

theorem uploadFile_noFile (req : UploadReq) (h : req.file = none) :
    uploadFile digest ipfsAddr fid st cs req = (.noFile, st, cs) := by
  simp only [uploadFile, h]

theorem uploadFile_noOwner (req : UploadReq) (file : UploadedFile)
    (h : req.file = some file) (h2 : (req.owner == "") = true) :
    uploadFile digest ipfsAddr fid st cs req = (.ownerRequired, st, cs) := by
  simp only [uploadFile, h, h2, if_true]

theorem uploadFile_dupContent (req : UploadReq) (file : UploadedFile)
    (g : FileMetadata) (h : req.file = some file)
    (h2 : (req.owner == "") = false)
    (h3 : findByHash st (digest file.buffer) = some g) :
    uploadFile digest ipfsAddr fid st cs req
      = (.duplicateContent g.fileId (digest file.buffer), st, cs) := by
  simp only [uploadFile, h, h2, Bool.false_eq_true, ite_false, h3]

theorem uploadFile_idCollision (req : UploadReq) (file : UploadedFile)
    (h : req.file = some file) (h2 : (req.owner == "") = false)
    (h3 : findByHash st (digest file.buffer) = none)
    (h4 : (st.any (fun f => f.fileId == fid)) = true) :
    uploadFile digest ipfsAddr fid st cs req
      = (.persistError, st, cs ++ [file.buffer]) := by
  simp only [uploadFile, h, h2, Bool.false_eq_true, ite_false, h3, h4, if_true]

theorem uploadFile_created (req : UploadReq) (file : UploadedFile)
    (h : req.file = some file) (h2 : (req.owner == "") = false)
    (h3 : findByHash st (digest file.buffer) = none)
    (h4 : (st.any (fun f => f.fileId == fid)) = false) :
    uploadFile digest ipfsAddr fid st cs req
      = (.created fid (digest file.buffer) (ipfsAddr file.buffer) 1,
         st ++ [newFileMetadata digest ipfsAddr fid file req],
         cs ++ [file.buffer]) := by
  simp only [uploadFile, h, h2, Bool.false_eq_true, ite_false, h3, h4]

theorem appendCompute_dup (f : FileMetadata) (file : UploadedFile)
    (uploadedBy : String) (v : FileVersion)
    (h : f.versions.find? (fun v => v.sha256Hash == digest file.buffer)
          = some v) :
    appendCompute digest ipfsAddr f file uploadedBy
      = .dup v.versionNumber := by
  simp only [appendCompute, h]

theorem appendCompute_push (f : FileMetadata) (file : UploadedFile)
    (uploadedBy : String)
    (h : f.versions.find? (fun v => v.sha256Hash == digest file.buffer)
          = none) :
    appendCompute digest ipfsAddr f file uploadedBy
      = .push
          (f.addVersion
            { sha256Hash := digest file.buffer
              ipfsHash := ipfsAddr file.buffer
              fileSize := file.size
              mimeType := file.mimetype
              uploadedBy := uploadedBy }).1
          (f.addVersion
            { sha256Hash := digest file.buffer
              ipfsHash := ipfsAddr file.buffer
              fileSize := file.size
              mimeType := file.mimetype
              uploadedBy := uploadedBy }).2
          file.buffer := by
  simp only [appendCompute, h]

theorem addNewVersion_noFile (req : AppendReq) (h : req.file = none) :
    addNewVersion digest ipfsAddr st cs fid req = (.noFile, st, cs) := by
  simp only [addNewVersion, h]

theorem addNewVersion_noBy (req : AppendReq) (file : UploadedFile)
    (h : req.file = some file) (h2 : (req.uploadedBy == "") = true) :
    addNewVersion digest ipfsAddr st cs fid req
      = (.uploadedByRequired, st, cs) := by
  simp only [addNewVersion, h, h2, if_true]

theorem addNewVersion_notFound (req : AppendReq) (file : UploadedFile)
    (h : req.file = some file) (h2 : (req.uploadedBy == "") = false)
    (h3 : findOneActive st fid = none) :
    addNewVersion digest ipfsAddr st cs fid req = (.notFound, st, cs) := by
  simp only [addNewVersion, h, h2, Bool.false_eq_true, ite_false, h3]

theorem addNewVersion_dup (req : AppendReq) (file : UploadedFile)
    (f : FileMetadata) (n : Nat) (h : req.file = some file)
    (h2 : (req.uploadedBy == "") = false)
    (h3 : findOneActive st fid = some f)
    (h4 : appendCompute digest ipfsAddr f file req.uploadedBy = .dup n) :
    addNewVersion digest ipfsAddr st cs fid req
      = (.duplicateVersion n, st, cs) := by
  simp only [addNewVersion, h, h2, Bool.false_eq_true, ite_false, h3, h4]

theorem addNewVersion_push (req : AppendReq) (file : UploadedFile)
    (f f' : FileMetadata) (nv : FileVersion) (payload : Payload)
    (h : req.file = some file) (h2 : (req.uploadedBy == "") = false)
    (h3 : findOneActive st fid = some f)
    (h4 : appendCompute digest ipfsAddr f file req.uploadedBy
           = .push nv f' payload) :
    addNewVersion digest ipfsAddr st cs fid req
      = (.added nv.versionNumber nv.sha256Hash nv.ipfsHash,
         saveFirst (activePred fid) f' st, cs ++ [payload]) := by
  simp only [addNewVersion, h, h2, Bool.false_eq_true, ite_false, h3, h4]

theorem deleteFile_noOwner (ow : String) (h : (ow == "") = true) :
    deleteFile st fid ow = (.ownerRequired, st) := by
  simp only [deleteFile, h, if_true]

theorem deleteFile_notFound (ow : String) (h : (ow == "") = false)
    (h2 : st.find? (delPred fid ow) = none) :
    deleteFile st fid ow = (.notFound, st) := by
  simp only [deleteFile, h, Bool.false_eq_true, ite_false, h2]

theorem deleteFile_found (ow : String) (f : FileMetadata)
    (h : (ow == "") = false) (h2 : st.find? (delPred fid ow) = some f) :
    deleteFile st fid ow
      = (.deleted, saveFirst (delPred fid ow) { f with isActive := false } st)
    := by
  simp only [deleteFile, h, Bool.false_eq_true, ite_false, h2]

end Equations

theorem contiguous_newFileMetadata (digest ipfsAddr : Payload → String)
    (fid : String) (file : UploadedFile) (req : UploadReq) :
    contiguousFile (newFileMetadata digest ipfsAddr fid file req) = true := by
  simp [contiguousFile, newFileMetadata, numberedFrom]

theorem uploadFile_preserves (digest ipfsAddr : Payload → String)
    (fid : String) (st : Store) (cs : List Payload) (req : UploadReq)
    (h : StoreOK st) :
    StoreOK (uploadFile digest ipfsAddr fid st cs req).2.1 := by
  cases hfile : req.file with
  | none => rw [uploadFile_noFile digest ipfsAddr fid st cs req hfile]; exact h
  | some file =>
    by_cases how : (req.owner == "") = true
    · rw [uploadFile_noOwner digest ipfsAddr fid st cs req file hfile how]
      exact h
    · rw [Bool.not_eq_true] at how
      cases hdup : findByHash st (digest file.buffer) with
      | some g =>
        rw [uploadFile_dupContent digest ipfsAddr fid st cs req file g hfile
          how hdup]
        exact h
      | none =>
        by_cases hcol : (st.any (fun f => f.fileId == fid)) = true
        · rw [uploadFile_idCollision digest ipfsAddr fid st cs req file hfile
            how hdup hcol]
          exact h
        · rw [Bool.not_eq_true] at hcol
          rw [uploadFile_created digest ipfsAddr fid st cs req file hfile how
            hdup hcol]
          intro f hf
          rcases List.mem_append.mp hf with hf | hf
          · exact h f hf
          · rcases List.mem_singleton.mp hf with rfl
            exact contiguous_newFileMetadata digest ipfsAddr fid file req

theorem addNewVersion_preserves (digest ipfsAddr : Payload → String)
    (st : Store) (cs : List Payload) (fid : String) (req : AppendReq)
    (h : StoreOK st) :
    StoreOK (addNewVersion digest ipfsAddr st cs fid req).2.1 := by
  cases hfile : req.file with
  | none =>
    rw [addNewVersion_noFile digest ipfsAddr fid st cs req hfile]; exact h
  | some file =>
    by_cases hby : (req.uploadedBy == "") = true
    · rw [addNewVersion_noBy digest ipfsAddr fid st cs req file hfile hby]
      exact h
    · rw [Bool.not_eq_true] at hby
      cases hfind : findOneActive st fid with
      | none =>
        rw [addNewVersion_notFound digest ipfsAddr fid st cs req file hfile
          hby hfind]
        exact h
      | some f =>
        have hcf : contiguousFile f = true :=
          h f (List.mem_of_find?_eq_some hfind)
        cases hdup : f.versions.find?
            (fun v => v.sha256Hash == digest file.buffer) with
        | some v =>
          rw [addNewVersion_dup digest ipfsAddr fid st cs req file f
            v.versionNumber hfile hby hfind
            (appendCompute_dup digest ipfsAddr f file req.uploadedBy v hdup)]
          exact h
        | none =>
          rw [addNewVersion_push digest ipfsAddr fid st cs req file f _ _ _
            hfile hby hfind
            (appendCompute_push digest ipfsAddr f file req.uploadedBy hdup)]
          intro g hg
          rcases mem_saveFirst hg with hg' | rfl
          · exact h g hg'
          · exact contiguous_addVersion _ hcf

theorem deleteFile_preserves (st : Store) (fid ow : String)
    (h : StoreOK st) : StoreOK (deleteFile st fid ow).2 := by
  by_cases hw : (ow == "") = true
  · rw [deleteFile_noOwner fid st ow hw]; exact h
  · rw [Bool.not_eq_true] at hw
    cases hfind : st.find? (delPred fid ow) with
    | none => rw [deleteFile_notFound fid st ow hw hfind]; exact h
    | some f =>
      rw [deleteFile_found fid st ow f hw hfind]
      intro g hg
      rcases mem_saveFirst hg with hg' | rfl
      · exact h g hg'
      · have := h f (List.mem_of_find?_eq_some hfind)
        simpa [contiguousFile] using this

theorem stepOp_preserves (digest ipfsAddr : Payload → String)
    (s : Store × List Payload) (op : EngineOp) (h : StoreOK s.1) :
    StoreOK (stepOp digest ipfsAddr s op).1 := by
  cases op with
  | upload fid req => exact uploadFile_preserves digest ipfsAddr fid s.1 s.2 req h
  | append fid req => exact addNewVersion_preserves digest ipfsAddr s.1 s.2 fid req h
  | softDelete fid ow => exact deleteFile_preserves s.1 fid ow h

theorem foldl_stepOp_preserves (digest ipfsAddr : Payload → String)
    (ops : List EngineOp) :
    ∀ s : Store × List Payload, StoreOK s.1 →
      StoreOK (ops.foldl (stepOp digest ipfsAddr) s).1 := by
  induction ops with
  | nil => intro s h; exact h
  | cons op ops ih =>
    intro s h
    exact ih _ (stepOp_preserves digest ipfsAddr s op h)

/-!  Claim theorems. -/

/-- C1: every LogicalFile reachable through the engine operations
(uploadFile = CreateFile and then any sequence of addNewVersion =
AppendVersion, softDelete included for good measure) has version numbers
forming the contiguous sequence 1..len(versions); uploadFile assigns
version 1 to the single initial version, and every successful
addNewVersion assigns exactly count + 1 to the appended version. -/
theorem version_numbers_contiguous :
    (∀ (digest ipfsAddr : Payload → String) (ops : List EngineOp),
        ∀ f ∈ (runOps digest ipfsAddr ops).1, contiguousFile f = true)
    ∧ (∀ (digest ipfsAddr : Payload → String) (fid : String) (st : Store)
          (cs : List Payload) (req : UploadReq) (file : UploadedFile),
        req.file = some file → (req.owner == "") = false →
        findByHash st (digest file.buffer) = none →
        (st.any (fun f => f.fileId == fid)) = false →
        ∃ g, uploadFile digest ipfsAddr fid st cs req
            = (.created fid (digest file.buffer) (ipfsAddr file.buffer) 1,
               st ++ [g], cs ++ [file.buffer])
          ∧ g.versions.map FileVersion.versionNumber = [1])
    ∧ (∀ (digest ipfsAddr : Payload → String) (st : Store) (cs : List Payload)
          (fid : String) (req : AppendReq) (file : UploadedFile)
          (f : FileMetadata),
        req.file = some file → (req.uploadedBy == "") = false →
        findOneActive st fid = some f →
        f.versions.find? (fun v => v.sha256Hash == digest file.buffer) = none →
        ∃ nv g, addNewVersion digest ipfsAddr st cs fid req
            = (.added (f.versions.length + 1) (digest file.buffer)
                 (ipfsAddr file.buffer),
               saveFirst (activePred fid) g st, cs ++ [file.buffer])
          ∧ nv.versionNumber = f.versions.length + 1
          ∧ g.versions = f.versions ++ [nv]) := by
  refine ⟨?_, ?_, ?_⟩
  · intro digest ipfsAddr ops f hf
    exact foldl_stepOp_preserves digest ipfsAddr ops ([], [])
      (by intro g hg; simp at hg) f hf
  · intro digest ipfsAddr fid st cs req file h1 h2 h3 h4
    refine ⟨newFileMetadata digest ipfsAddr fid file req, ?_, ?_⟩
    · exact uploadFile_created digest ipfsAddr fid st cs req file h1 h2 h3 h4
    · simp [newFileMetadata]
  · intro digest ipfsAddr st cs fid req file f h1 h2 h3 h4
    refine ⟨(f.addVersion
        { sha256Hash := digest file.buffer
          ipfsHash := ipfsAddr file.buffer
          fileSize := file.size
          mimeType := file.mimetype
          uploadedBy := req.uploadedBy }).1,
      (f.addVersion
        { sha256Hash := digest file.buffer
          ipfsHash := ipfsAddr file.buffer
          fileSize := file.size
          mimeType := file.mimetype
          uploadedBy := req.uploadedBy }).2, ?_, rfl, rfl⟩
    exact addNewVersion_push digest ipfsAddr fid st cs req file f _ _ _
      h1 h2 h3 (appendCompute_push digest ipfsAddr f file req.uploadedBy h4)

/-- Witness of C1 at a concrete run: one upload followed by one append. -/
theorem version_numbers_contiguous_witness :
    (contiguousFile
      { fileId := "f1", originalFileName := "a.txt", owner := "alice",
        isActive := true,
        versions := [{ versionNumber := 1, sha256Hash := "[1]",
                       ipfsHash := "Q[1]", fileSize := 1,
                       mimeType := "text/plain", uploadedBy := "alice" }],
        tags := [], description := "" } = true)
    ∧ (∃ g, uploadFile (fun p => toString p) (fun p => "Q" ++ toString p)
          "f1" [] []
          { file := some { buffer := [1], originalname := "a.txt",
                           mimetype := "text/plain", size := 1 },
            owner := "alice", description := none, tags := none }
          = (.created "f1" "[1]" "Q[1]" 1, [] ++ [g], [] ++ [[1]])
        ∧ g.versions.map FileVersion.versionNumber = [1])
    ∧ (∃ nv g,
        addNewVersion (fun p => toString p) (fun p => "Q" ++ toString p)
          [{ fileId := "f1", originalFileName := "a.txt", owner := "alice",
             isActive := true,
             versions := [{ versionNumber := 1, sha256Hash := "[1]",
                            ipfsHash := "Q[1]", fileSize := 1,
                            mimeType := "text/plain",
                            uploadedBy := "alice" }],
             tags := [], description := "" }] [] "f1"
          { file := some { buffer := [2], originalname := "a.txt",
                           mimetype := "text/plain", size := 1 },
            uploadedBy := "alice" }
          = (.added (1 + 1) "[2]" "Q[2]",
             saveFirst (activePred "f1") g
               [{ fileId := "f1", originalFileName := "a.txt",
                  owner := "alice", isActive := true,
                  versions := [{ versionNumber := 1, sha256Hash := "[1]",
                                 ipfsHash := "Q[1]", fileSize := 1,
                                 mimeType := "text/plain",
                                 uploadedBy := "alice" }],
                  tags := [], description := "" }], [] ++ [[2]])
        ∧ nv.versionNumber = 1 + 1
        ∧ g.versions
            = [{ versionNumber := 1, sha256Hash := "[1]", ipfsHash := "Q[1]",
                 fileSize := 1, mimeType := "text/plain",
                 uploadedBy := "alice" }] ++ [nv]) := by
  refine ⟨?_, ?_, ?_⟩
  · exact version_numbers_contiguous.1 (fun p => toString p)
      (fun p => "Q" ++ toString p)
      [.upload "f1"
        { file := some { buffer := [1], originalname := "a.txt",
                         mimetype := "text/plain", size := 1 },
          owner := "alice", description := none, tags := none }] _
      (by decide)
  · exact version_numbers_contiguous.2.1 (fun p => toString p)
      (fun p => "Q" ++ toString p) "f1" [] []
      { file := some { buffer := [1], originalname := "a.txt",
                       mimetype := "text/plain", size := 1 },
        owner := "alice", description := none, tags := none }
      { buffer := [1], originalname := "a.txt", mimetype := "text/plain",
        size := 1 }
      rfl (by decide) rfl rfl
  · exact version_numbers_contiguous.2.2 (fun p => toString p)
      (fun p => "Q" ++ toString p)
      [{ fileId := "f1", originalFileName := "a.txt", owner := "alice",
         isActive := true,
         versions := [{ versionNumber := 1, sha256Hash := "[1]",
                        ipfsHash := "Q[1]", fileSize := 1,
                        mimeType := "text/plain", uploadedBy := "alice" }],
         tags := [], description := "" }] [] "f1"
      { file := some { buffer := [2], originalname := "a.txt",
                       mimetype := "text/plain", size := 1 },
        uploadedBy := "alice" }
      { buffer := [2], originalname := "a.txt", mimetype := "text/plain",
        size := 1 }
      { fileId := "f1", originalFileName := "a.txt", owner := "alice",
        isActive := true,
        versions := [{ versionNumber := 1, sha256Hash := "[1]",
                       ipfsHash := "Q[1]", fileSize := 1,
                       mimeType := "text/plain", uploadedBy := "alice" }],
        tags := [], description := "" }
      rfl (by decide) (by decide) (by decide)

/-- C2: when the digest of the payload equals the contentHash of some
version of some active stored file, uploadFile fails with the duplicate
content error carrying the conflicting fileId, mutates neither the store
nor the content store, and creates no second file; the findByHash lookup
considers active files only. -/
theorem createFile_duplicate_content :
    (∀ (digest ipfsAddr : Payload → String) (fid : String) (st : Store)
        (cs : List Payload) (req : UploadReq) (file : UploadedFile),
      req.file = some file → (req.owner == "") = false →
      (∃ g ∈ st, g.isActive = true
          ∧ ∃ v ∈ g.versions, v.sha256Hash = digest file.buffer) →
      ∃ g, findByHash st (digest file.buffer) = some g ∧ g ∈ st
        ∧ g.isActive = true
        ∧ uploadFile digest ipfsAddr fid st cs req
            = (.duplicateContent g.fileId (digest file.buffer), st, cs))
    ∧ (∀ (st : Store) (h : String),
        (∀ g ∈ st, g.isActive = true → ∀ v ∈ g.versions, v.sha256Hash ≠ h) →
        findByHash st h = none) := by
  constructor
  · intro digest ipfsAddr fid st cs req file h1 h2 h3
    have hex : ∃ x ∈ st,
        (x.isActive && x.versions.any
          (fun v => v.sha256Hash == digest file.buffer)) = true := by
      rcases h3 with ⟨g, hg, hact, v, hv, hh⟩
      refine ⟨g, hg, ?_⟩
      simp only [Bool.and_eq_true, List.any_eq_true, beq_iff_eq]
      exact ⟨hact, v, hv, hh⟩
    rcases exists_find? hex with ⟨y, hfind, hp, hmem⟩
    simp only [Bool.and_eq_true] at hp
    refine ⟨y, hfind, hmem, hp.1, ?_⟩
    exact uploadFile_dupContent digest ipfsAddr fid st cs req file y h1 h2 hfind
  · intro st h hnone
    rw [findByHash, List.find?_eq_none]
    intro g hg
    simp only [Bool.and_eq_true, List.any_eq_true, beq_iff_eq, not_and,
      not_exists]
    intro hact v hv
    exact hnone g hg hact v hv

/-- Witness of C2: a second upload of the bytes behind an existing active
version is rejected, and findByHash skips inactive files. -/
theorem createFile_duplicate_content_witness :
    (∃ g, findByHash
        [{ fileId := "f1", originalFileName := "a.txt", owner := "alice",
           isActive := true,
           versions := [{ versionNumber := 1, sha256Hash := "[1]",
                          ipfsHash := "Q[1]", fileSize := 1,
                          mimeType := "text/plain",
                          uploadedBy := "alice" }],
           tags := [], description := "" }] "[1]" = some g
      ∧ g ∈ [{ fileId := "f1", originalFileName := "a.txt", owner := "alice",
               isActive := true,
               versions := [{ versionNumber := 1, sha256Hash := "[1]",
                              ipfsHash := "Q[1]", fileSize := 1,
                              mimeType := "text/plain",
                              uploadedBy := "alice" }],
               tags := [], description := "" }]
      ∧ g.isActive = true
      ∧ uploadFile (fun p => toString p) (fun p => "Q" ++ toString p) "f2"
          [{ fileId := "f1", originalFileName := "a.txt", owner := "alice",
             isActive := true,
             versions := [{ versionNumber := 1, sha256Hash := "[1]",
                            ipfsHash := "Q[1]", fileSize := 1,
                            mimeType := "text/plain",
                            uploadedBy := "alice" }],
             tags := [], description := "" }] []
          { file := some { buffer := [1], originalname := "b.txt",
                           mimetype := "text/plain", size := 1 },
            owner := "bob", description := none, tags := none }
          = (.duplicateContent g.fileId "[1]",
             [{ fileId := "f1", originalFileName := "a.txt",
                owner := "alice", isActive := true,
                versions := [{ versionNumber := 1, sha256Hash := "[1]",
                               ipfsHash := "Q[1]", fileSize := 1,
                               mimeType := "text/plain",
                               uploadedBy := "alice" }],
                tags := [], description := "" }], []))
    ∧ findByHash
        [{ fileId := "f1", originalFileName := "a.txt", owner := "alice",
           isActive := false,
           versions := [{ versionNumber := 1, sha256Hash := "[1]",
                          ipfsHash := "Q[1]", fileSize := 1,
                          mimeType := "text/plain",
                          uploadedBy := "alice" }],
           tags := [], description := "" }] "[1]" = none := by
  constructor
  · exact createFile_duplicate_content.1 (fun p => toString p)
      (fun p => "Q" ++ toString p) "f2"
      [{ fileId := "f1", originalFileName := "a.txt", owner := "alice",
         isActive := true,
         versions := [{ versionNumber := 1, sha256Hash := "[1]",
                        ipfsHash := "Q[1]", fileSize := 1,
                        mimeType := "text/plain", uploadedBy := "alice" }],
         tags := [], description := "" }] []
      { file := some { buffer := [1], originalname := "b.txt",
                       mimetype := "text/plain", size := 1 },
        owner := "bob", description := none, tags := none }
      { buffer := [1], originalname := "b.txt", mimetype := "text/plain",
        size := 1 }
      rfl (by decide) (by decide)
  · exact createFile_duplicate_content.2
      [{ fileId := "f1", originalFileName := "a.txt", owner := "alice",
         isActive := false,
         versions := [{ versionNumber := 1, sha256Hash := "[1]",
                        ipfsHash := "Q[1]", fileSize := 1,
                        mimeType := "text/plain", uploadedBy := "alice" }],
         tags := [], description := "" }] "[1]" (by decide)

/-- C3: appending bytes whose digest equals the contentHash of an existing
version of the same active file fails with the duplicate version error
carrying that version number, performs no content-store write, and leaves
the version count unchanged (the whole store is untouched). -/
theorem appendVersion_duplicate_version :
    ∀ (digest ipfsAddr : Payload → String) (st : Store) (cs : List Payload)
      (fid : String) (req : AppendReq) (file : UploadedFile)
      (f : FileMetadata),
      req.file = some file → (req.uploadedBy == "") = false →
      findOneActive st fid = some f →
      (∃ v ∈ f.versions, v.sha256Hash = digest file.buffer) →
      f.isActive = true
      ∧ ∃ v, v ∈ f.versions ∧ v.sha256Hash = digest file.buffer
        ∧ addNewVersion digest ipfsAddr st cs fid req
            = (.duplicateVersion v.versionNumber, st, cs) := by
  intro digest ipfsAddr st cs fid req file f h1 h2 h3 h4
  have hact : f.isActive = true := by
    have := List.find?_some h3
    simp only [activePred, Bool.and_eq_true] at this
    exact this.2
  refine ⟨hact, ?_⟩
  have hex : ∃ v ∈ f.versions,
      (v.sha256Hash == digest file.buffer) = true := by
    rcases h4 with ⟨v, hv, hh⟩
    exact ⟨v, hv, beq_iff_eq.mpr hh⟩
  rcases exists_find? hex with ⟨v, hfind, hpv, hmv⟩
  refine ⟨v, hmv, beq_iff_eq.mp hpv, ?_⟩
  exact addNewVersion_dup digest ipfsAddr fid st cs req file f
    v.versionNumber h1 h2 h3
    (appendCompute_dup digest ipfsAddr f file req.uploadedBy v hfind)

/-- Witness of C3: re-appending the bytes of version 1 is rejected with
that version number and changes nothing. -/
theorem appendVersion_duplicate_version_witness :
    (true : Bool) = true
    ∧ (∃ v, v ∈ [{ versionNumber := 1, sha256Hash := "[1]",
                   ipfsHash := "Q[1]", fileSize := 1,
                   mimeType := "text/plain",
                   uploadedBy := "alice" : FileVersion }]
        ∧ v.sha256Hash = "[1]"
        ∧ addNewVersion (fun p => toString p) (fun p => "Q" ++ toString p)
            [{ fileId := "f1", originalFileName := "a.txt", owner := "alice",
               isActive := true,
               versions := [{ versionNumber := 1, sha256Hash := "[1]",
                              ipfsHash := "Q[1]", fileSize := 1,
                              mimeType := "text/plain",
                              uploadedBy := "alice" }],
               tags := [], description := "" }] [] "f1"
            { file := some { buffer := [1], originalname := "a.txt",
                             mimetype := "text/plain", size := 1 },
              uploadedBy := "alice" }
            = (.duplicateVersion v.versionNumber,
               [{ fileId := "f1", originalFileName := "a.txt",
                  owner := "alice", isActive := true,
                  versions := [{ versionNumber := 1, sha256Hash := "[1]",
                                 ipfsHash := "Q[1]", fileSize := 1,
                                 mimeType := "text/plain",
                                 uploadedBy := "alice" }],
                  tags := [], description := "" }], [])) :=
  appendVersion_duplicate_version (fun p => toString p)
    (fun p => "Q" ++ toString p)
    [{ fileId := "f1", originalFileName := "a.txt", owner := "alice",
       isActive := true,
       versions := [{ versionNumber := 1, sha256Hash := "[1]",
                      ipfsHash := "Q[1]", fileSize := 1,
                      mimeType := "text/plain", uploadedBy := "alice" }],
       tags := [], description := "" }] [] "f1"
    { file := some { buffer := [1], originalname := "a.txt",
                     mimetype := "text/plain", size := 1 },
      uploadedBy := "alice" }
    { buffer := [1], originalname := "a.txt", mimetype := "text/plain",
      size := 1 }
    { fileId := "f1", originalFileName := "a.txt", owner := "alice",
      isActive := true,
      versions := [{ versionNumber := 1, sha256Hash := "[1]",
                     ipfsHash := "Q[1]", fileSize := 1,
                     mimeType := "text/plain", uploadedBy := "alice" }],
      tags := [], description := "" }
    rfl (by decide) (by decide) (by decide)

theorem getLatestVersion_eq_getLast? (f : FileMetadata) :
    f.getLatestVersion = f.versions.getLast? := by
  unfold FileMetadata.getLatestVersion
  cases hv : f.versions with
  | nil => simp
  | cons w ws =>
    rw [List.getLast?_eq_getElem?]
    simp

theorem mem_saveFirst_self {p : FileMetadata → Bool} {g f : FileMetadata} :
    ∀ {l : Store}, l.find? p = some f → g ∈ saveFirst p g l := by
  intro l
  induction l with
  | nil => intro h; simp at h
  | cons a rest ih =>
    intro h
    by_cases ha : p a = true
    · simp [saveFirst, ha]
    · rw [List.find?_cons_of_neg _ ha] at h
      simp only [saveFirst, ha, Bool.false_eq_true, ite_false, List.mem_cons]
      exact Or.inr (ih h)

theorem find?_saveFirst_delPred (fid ow : String) (f : FileMetadata) :
    ∀ (l : Store), l.countP (fun g => g.fileId == fid) ≤ 1 →
      l.find? (delPred fid ow) = some f →
      (saveFirst (delPred fid ow) { f with isActive := false } l).find?
        (delPred fid ow) = none := by
  intro l
  induction l with
  | nil => intro _ h; simp at h
  | cons a rest ih =>
    intro hcount hfind
    by_cases ha : delPred fid ow a = true
    · rw [List.find?_cons_of_pos _ ha] at hfind
      have hfa : f = a := by injection hfind with h; exact h.symm
      subst hfa
      have haid : (f.fileId == fid) = true := by
        simp only [delPred, Bool.and_eq_true] at ha
        exact ha.1.1
      simp only [saveFirst, ha, if_true]
      rw [List.find?_cons_of_neg _ (by simp [delPred])]
      rw [List.find?_eq_none]
      intro x hx
      have hrest : rest.countP (fun g => g.fileId == fid) = 0 := by
        have hone : (if (f.fileId == fid) = true then 1 else 0) = 1 := by
          simp [haid]
        rw [List.countP_cons, hone] at hcount
        omega
      have hxid : ¬((x.fileId == fid) = true) :=
        List.countP_eq_zero.mp hrest x hx
      simp only [delPred, Bool.and_eq_true]
      intro hcontra
      exact hxid hcontra.1.1
    · rw [List.find?_cons_of_neg _ ha] at hfind
      simp only [saveFirst, ha, Bool.false_eq_true, ite_false]
      rw [List.find?_cons_of_neg _ ha]
      refine ih ?_ hfind
      rw [List.countP_cons] at hcount
      omega

/-- C5: on a resolvable version, verifyFileIntegrity returns the verified
result carrying the match flag, the size-match flag and the recomputed
hash whether or not they indicate a mismatch (HTTP 200 either way), while
a content-store fetch failure is surfaced as the distinct fetch-failure
error, never as a verification result. -/
theorem verifyIntegrity_result_shape :
    ∀ (digest : Payload → String) (fetch : String → Option Payload)
      (st : Store) (fid sel : String) (f : FileMetadata) (v : FileVersion),
      findOneActive st fid = some f →
      f.getVersion (jsParseInt sel) = some v →
      (fetch v.ipfsHash = none →
        verifyFileIntegrity digest fetch st fid sel
          = .ipfsFetchFailed fid (jsParseInt sel) v.ipfsHash)
      ∧ (∀ buf, fetch v.ipfsHash = some buf →
          verifyFileIntegrity digest fetch st fid sel
            = .verified (verifyHash digest buf v.sha256Hash) (digest buf)
                v.sha256Hash buf.length v.fileSize
                (buf.length == v.fileSize)) := by
  intro digest fetch st fid sel f v h1 h2
  constructor
  · intro h3
    simp only [verifyFileIntegrity, h1, h2, h3]
  · intro buf h3
    simp only [verifyFileIntegrity, h1, h2, h3]

/-- Witness of C5: a corrupted blob gives a normal verified result with
isValid = false, and a missing blob gives the fetch-failure error. -/
theorem verifyIntegrity_result_shape_witness :
    (verifyFileIntegrity (fun p => toString p) (fun _ => none)
        [{ fileId := "f1", originalFileName := "a.txt", owner := "alice",
           isActive := true,
           versions := [{ versionNumber := 1, sha256Hash := "[1]",
                          ipfsHash := "Q[1]", fileSize := 1,
                          mimeType := "text/plain",
                          uploadedBy := "alice" }],
           tags := [], description := "" }] "f1" "1"
      = .ipfsFetchFailed "f1" (jsParseInt "1") "Q[1]")
    ∧ (verifyFileIntegrity (fun p => toString p) (fun _ => some [9])
        [{ fileId := "f1", originalFileName := "a.txt", owner := "alice",
           isActive := true,
           versions := [{ versionNumber := 1, sha256Hash := "[1]",
                          ipfsHash := "Q[1]", fileSize := 1,
                          mimeType := "text/plain",
                          uploadedBy := "alice" }],
           tags := [], description := "" }] "f1" "1"
      = .verified (verifyHash (fun p => toString p) [9] "[1]") "[9]" "[1]"
          1 1 (1 == 1)) := by
  constructor
  · exact (verifyIntegrity_result_shape (fun p => toString p) (fun _ => none)
      [{ fileId := "f1", originalFileName := "a.txt", owner := "alice",
         isActive := true,
         versions := [{ versionNumber := 1, sha256Hash := "[1]",
                        ipfsHash := "Q[1]", fileSize := 1,
                        mimeType := "text/plain", uploadedBy := "alice" }],
         tags := [], description := "" }] "f1" "1"
      { fileId := "f1", originalFileName := "a.txt", owner := "alice",
        isActive := true,
        versions := [{ versionNumber := 1, sha256Hash := "[1]",
                       ipfsHash := "Q[1]", fileSize := 1,
                       mimeType := "text/plain", uploadedBy := "alice" }],
        tags := [], description := "" }
      { versionNumber := 1, sha256Hash := "[1]", ipfsHash := "Q[1]",
        fileSize := 1, mimeType := "text/plain", uploadedBy := "alice" }
      (by decide) (by decide)).1 rfl
  · exact (verifyIntegrity_result_shape (fun p => toString p)
      (fun _ => some [9])
      [{ fileId := "f1", originalFileName := "a.txt", owner := "alice",
         isActive := true,
         versions := [{ versionNumber := 1, sha256Hash := "[1]",
                        ipfsHash := "Q[1]", fileSize := 1,
                        mimeType := "text/plain", uploadedBy := "alice" }],
         tags := [], description := "" }] "f1" "1"
      { fileId := "f1", originalFileName := "a.txt", owner := "alice",
        isActive := true,
        versions := [{ versionNumber := 1, sha256Hash := "[1]",
                       ipfsHash := "Q[1]", fileSize := 1,
                       mimeType := "text/plain", uploadedBy := "alice" }],
        tags := [], description := "" }
      { versionNumber := 1, sha256Hash := "[1]", ipfsHash := "Q[1]",
        fileSize := 1, mimeType := "text/plain", uploadedBy := "alice" }
      (by decide) (by decide)).2 [9] rfl

/-- C6: deleteFile answers notFound exactly when no stored file is
simultaneously active, named by the requested fileId and owned by the
claimed owner, so an ownership mismatch is indistinguishable from a
missing file; on success the matched file is persisted with
isActive = false, and (when fileIds are unique) a second delete by the
true owner answers notFound. -/
theorem softDelete_semantics :
    (∀ (st : Store) (fid ow : String), (ow == "") = false →
      (∀ f ∈ st, ¬(f.isActive = true ∧ f.fileId = fid ∧ f.owner = ow)) →
      deleteFile st fid ow = (.notFound, st))
    ∧ (∀ (st : Store) (fid ow : String) (f : FileMetadata),
        (ow == "") = false → st.find? (delPred fid ow) = some f →
        ∃ st', deleteFile st fid ow = (.deleted, st')
          ∧ ∃ g ∈ st', g.fileId = f.fileId ∧ g.owner = f.owner
              ∧ g.isActive = false)
    ∧ (∀ (st : Store) (fid ow : String) (f : FileMetadata),
        (ow == "") = false →
        st.countP (fun g => g.fileId == fid) ≤ 1 →
        st.find? (delPred fid ow) = some f →
        ∃ st', deleteFile st fid ow = (.deleted, st')
          ∧ deleteFile st' fid ow = (.notFound, st')) := by
  refine ⟨?_, ?_, ?_⟩
  · intro st fid ow how hnone
    refine deleteFile_notFound fid st ow how ?_
    rw [List.find?_eq_none]
    intro f hf
    simp only [delPred, Bool.and_eq_true, beq_iff_eq]
    intro hcontra
    exact hnone f hf ⟨hcontra.2, hcontra.1.1, hcontra.1.2⟩
  · intro st fid ow f how hfind
    refine ⟨saveFirst (delPred fid ow) { f with isActive := false } st,
      deleteFile_found fid st ow f how hfind,
      { f with isActive := false }, mem_saveFirst_self hfind, rfl, rfl, rfl⟩
  · intro st fid ow f how hcount hfind
    refine ⟨saveFirst (delPred fid ow) { f with isActive := false } st,
      deleteFile_found fid st ow f how hfind, ?_⟩
    exact deleteFile_notFound fid _ ow how
      (find?_saveFirst_delPred fid ow f st hcount hfind)

/-- Witness of C6: deleting with the wrong owner is notFound, with the
true owner it succeeds and a repeat is notFound. -/
theorem softDelete_semantics_witness :
    (deleteFile
        [{ fileId := "f1", originalFileName := "a.txt", owner := "alice",
           isActive := true,
           versions := [{ versionNumber := 1, sha256Hash := "[1]",
                          ipfsHash := "Q[1]", fileSize := 1,
                          mimeType := "text/plain",
                          uploadedBy := "alice" }],
           tags := [], description := "" }] "f1" "bob"
      = (.notFound,
         [{ fileId := "f1", originalFileName := "a.txt", owner := "alice",
            isActive := true,
            versions := [{ versionNumber := 1, sha256Hash := "[1]",
                           ipfsHash := "Q[1]", fileSize := 1,
                           mimeType := "text/plain",
                           uploadedBy := "alice" }],
            tags := [], description := "" }]))
    ∧ (∃ st', deleteFile
        [{ fileId := "f1", originalFileName := "a.txt", owner := "alice",
           isActive := true,
           versions := [{ versionNumber := 1, sha256Hash := "[1]",
                          ipfsHash := "Q[1]", fileSize := 1,
                          mimeType := "text/plain",
                          uploadedBy := "alice" }],
           tags := [], description := "" }] "f1" "alice"
        = (.deleted, st')
      ∧ deleteFile st' "f1" "alice" = (.notFound, st')) := by
  constructor
  · exact softDelete_semantics.1
      [{ fileId := "f1", originalFileName := "a.txt", owner := "alice",
         isActive := true,
         versions := [{ versionNumber := 1, sha256Hash := "[1]",
                        ipfsHash := "Q[1]", fileSize := 1,
                        mimeType := "text/plain", uploadedBy := "alice" }],
         tags := [], description := "" }] "f1" "bob" (by decide) (by decide)
  · exact softDelete_semantics.2.2
      [{ fileId := "f1", originalFileName := "a.txt", owner := "alice",
         isActive := true,
         versions := [{ versionNumber := 1, sha256Hash := "[1]",
                        ipfsHash := "Q[1]", fileSize := 1,
                        mimeType := "text/plain", uploadedBy := "alice" }],
         tags := [], description := "" }] "f1" "alice"
      { fileId := "f1", originalFileName := "a.txt", owner := "alice",
        isActive := true,
        versions := [{ versionNumber := 1, sha256Hash := "[1]",
                       ipfsHash := "Q[1]", fileSize := 1,
                       mimeType := "text/plain", uploadedBy := "alice" }],
        tags := [], description := "" }
      (by decide) (by decide) (by decide)

theorem find?_last_numbered (k : Nat) :
    ∀ (vs : List FileVersion) (b : Nat), numberedFrom b vs = true →
      vs ≠ [] → k = b + vs.length →
      vs.find? (fun v => ((v.versionNumber : Int) == (k : Int)))
        = vs.getLast? := by
  intro vs
  induction vs with
  | nil => intro b _ h; exact absurd rfl h
  | cons w ws ih =>
    intro b hnum _ hk
    simp only [numberedFrom, Bool.and_eq_true, beq_iff_eq] at hnum
    cases ws with
    | nil =>
      have hp : ((w.versionNumber : Int) == (k : Int)) = true := by
        rw [beq_iff_eq]
        have : w.versionNumber = k := by
          simp only [List.length_cons, List.length_nil] at hk
          omega
        exact_mod_cast this
      simp only [List.find?, hp]
      rfl
    | cons x xs =>
      have hp : ((w.versionNumber : Int) == (k : Int)) = false := by
        rw [beq_eq_false_iff_ne]
        intro hcontra
        have : w.versionNumber = k := by exact_mod_cast hcontra
        simp only [List.length_cons] at hk
        omega
      rw [List.getLast?_cons_cons]
      simp only [List.find?, hp]
      refine ih (b + 1) hnum.2 (by simp) ?_
      simp only [List.length_cons] at hk ⊢
      omega

theorem find?_numbered (n : Nat) :
    ∀ (vs : List FileVersion) (b : Nat), numberedFrom b vs = true →
      b < n → n ≤ b + vs.length →
      ∃ v, vs.find? (fun v => ((v.versionNumber : Int) == ((n : Nat) : Int)))
            = some v
        ∧ v ∈ vs ∧ v.versionNumber = n := by
  intro vs
  induction vs with
  | nil =>
    intro b _ h1 h2
    simp only [List.length_nil] at h2
    omega
  | cons w ws ih =>
    intro b hnum h1 h2
    simp only [numberedFrom, Bool.and_eq_true, beq_iff_eq] at hnum
    by_cases hn : n = b + 1
    · have hp : ((w.versionNumber : Int) == ((n : Nat) : Int)) = true := by
        rw [beq_iff_eq]
        exact_mod_cast (by omega : w.versionNumber = n)
      exact ⟨w, by simp only [List.find?, hp], List.mem_cons_self w ws,
        by omega⟩
    · have hp : ((w.versionNumber : Int) == ((n : Nat) : Int)) = false := by
        rw [beq_eq_false_iff_ne]
        intro hcontra
        have : w.versionNumber = n := by exact_mod_cast hcontra
        omega
      rcases ih (b + 1) hnum.2 (by omega)
        (by simp only [List.length_cons] at h2; omega) with ⟨v, hf, hm, hv⟩
      exact ⟨v, by simp only [List.find?, hp]; exact hf,
        List.mem_cons_of_mem _ hm, hv⟩

/-- C7: on a file whose versions are numbered 1..N with N at least 1,
resolving by the maximum version number returns exactly the latest
version; on a file with zero versions both the by-number and the latest
resolution return nothing, which the download path turns into its 404
no-such-version outcomes instead of crashing. -/
theorem resolve_latest_eq_max :
    (∀ f : FileMetadata, contiguousFile f = true → 1 ≤ f.versions.length →
      f.getVersion (some (f.versions.length : Int)) = f.getLatestVersion
      ∧ f.getLatestVersion.isSome = true)
    ∧ (∀ (f : FileMetadata) (k : Option Int), f.versions = [] →
        f.getVersion k = none ∧ f.getLatestVersion = none)
    ∧ (∀ (digest : Payload → String) (fetch : String → Option Payload)
         (st : Store) (fid : String) (f : FileMetadata) (s : String),
        findOneActive st fid = some f → f.versions = [] →
        downloadFile digest fetch st fid none = .noVersions
        ∧ ((s == "") = false →
            downloadFile digest fetch st fid (some s)
              = .versionNotFound (jsParseInt s))) := by
  refine ⟨?_, ?_, ?_⟩
  · intro f hc hlen
    have hne : f.versions ≠ [] := by
      intro hcontra
      rw [hcontra] at hlen
      simp at hlen
    constructor
    · rw [getLatestVersion_eq_getLast?]
      exact find?_last_numbered f.versions.length f.versions 0 hc hne
        (by omega)
    · rw [getLatestVersion_eq_getLast?, List.getLast?_eq_getElem?]
      cases hv : f.versions with
      | nil => exact absurd hv hne
      | cons w ws => simp
  · intro f k hv
    constructor
    · cases k with
      | none => rfl
      | some k => simp [FileMetadata.getVersion, hv]
    · simp [FileMetadata.getLatestVersion, hv]
  · intro digest fetch st fid f s h1 h2
    have hlat : f.getLatestVersion = none := by
      simp [FileMetadata.getLatestVersion, h2]
    constructor
    · simp only [downloadFile, h1, jsFalsy, if_true, hlat]
    · intro hs
      have hver : ∀ k, f.getVersion k = none := by
        intro k
        cases k with
        | none => rfl
        | some k => simp [FileMetadata.getVersion, h2]
      simp only [downloadFile, h1, jsFalsy, hs, Bool.false_eq_true,
        ite_false, Option.getD_some, hver]

/-- Witness of C7 on a two-version file and on a zero-version record. -/
theorem resolve_latest_eq_max_witness :
    (FileMetadata.getVersion
        { fileId := "f1", originalFileName := "a.txt", owner := "alice",
          isActive := true,
          versions := [{ versionNumber := 1, sha256Hash := "[1]",
                         ipfsHash := "Q[1]", fileSize := 1,
                         mimeType := "text/plain", uploadedBy := "alice" },
                       { versionNumber := 2, sha256Hash := "[2]",
                         ipfsHash := "Q[2]", fileSize := 1,
                         mimeType := "text/plain", uploadedBy := "alice" }],
          tags := [], description := "" } (some 2)
      = FileMetadata.getLatestVersion
          { fileId := "f1", originalFileName := "a.txt", owner := "alice",
            isActive := true,
            versions := [{ versionNumber := 1, sha256Hash := "[1]",
                           ipfsHash := "Q[1]", fileSize := 1,
                           mimeType := "text/plain",
                           uploadedBy := "alice" },
                         { versionNumber := 2, sha256Hash := "[2]",
                           ipfsHash := "Q[2]", fileSize := 1,
                           mimeType := "text/plain",
                           uploadedBy := "alice" }],
            tags := [], description := "" })
    ∧ (downloadFile (fun p => toString p) (fun _ => none)
        [{ fileId := "f0", originalFileName := "z.txt", owner := "alice",
           isActive := true, versions := [], tags := [],
           description := "" }] "f0" none = .noVersions
      ∧ downloadFile (fun p => toString p) (fun _ => none)
          [{ fileId := "f0", originalFileName := "z.txt", owner := "alice",
             isActive := true, versions := [], tags := [],
             description := "" }] "f0" (some "3")
          = .versionNotFound (jsParseInt "3")) := by
  constructor
  · exact (resolve_latest_eq_max.1
      { fileId := "f1", originalFileName := "a.txt", owner := "alice",
        isActive := true,
        versions := [{ versionNumber := 1, sha256Hash := "[1]",
                       ipfsHash := "Q[1]", fileSize := 1,
                       mimeType := "text/plain", uploadedBy := "alice" },
                     { versionNumber := 2, sha256Hash := "[2]",
                       ipfsHash := "Q[2]", fileSize := 1,
                       mimeType := "text/plain", uploadedBy := "alice" }],
        tags := [], description := "" } (by decide) (by decide)).1
  · have h := resolve_latest_eq_max.2.2 (fun p => toString p) (fun _ => none)
      [{ fileId := "f0", originalFileName := "z.txt", owner := "alice",
         isActive := true, versions := [], tags := [], description := "" }]
      "f0"
      { fileId := "f0", originalFileName := "z.txt", owner := "alice",
        isActive := true, versions := [], tags := [], description := "" }
      "3" (by decide) (by decide)
    exact ⟨h.1, h.2 (by decide)⟩

/-- C10: version selectors are parsed with JS parseInt truncation: a
selector whose leading characters form an integer resolves to that
version number ("2.9" and "2abc" both select 2); a selector with no
leading integer (such as "latest") parses to NaN and resolves to no
version, which the download path reports as version-not-found; only an
absent (falsy) selector triggers latest-version resolution. -/
theorem version_selector_truncation :
    (jsParseInt "2.9" = some 2 ∧ jsParseInt "2abc" = some 2
      ∧ jsParseInt "latest" = none)
    ∧ (∀ (f : FileMetadata) (s : String) (n : Nat),
        contiguousFile f = true → jsParseInt s = some ((n : Nat) : Int) →
        1 ≤ n → n ≤ f.versions.length →
        ∃ v, f.getVersion (jsParseInt s) = some v ∧ v ∈ f.versions
          ∧ v.versionNumber = n)
    ∧ (∀ (f : FileMetadata) (s : String), jsParseInt s = none →
        f.getVersion (jsParseInt s) = none)
    ∧ (∀ (digest : Payload → String) (fetch : String → Option Payload)
         (st : Store) (fid : String) (f : FileMetadata) (v : FileVersion),
        findOneActive st fid = some f → f.getLatestVersion = some v →
        downloadFile digest fetch st fid none = sendVersion digest fetch v)
    ∧ (∀ (digest : Payload → String) (fetch : String → Option Payload)
         (st : Store) (fid : String) (f : FileMetadata) (s : String),
        findOneActive st fid = some f → (s == "") = false →
        jsParseInt s = none →
        downloadFile digest fetch st fid (some s)
          = .versionNotFound none) := by
  refine ⟨⟨by decide, by decide, by decide⟩, ?_, ?_, ?_, ?_⟩
  · intro f s n hc hparse h1 h2
    rw [hparse]
    exact find?_numbered n f.versions 0 hc (by omega) (by omega)
  · intro f s hparse
    rw [hparse]
    rfl
  · intro digest fetch st fid f v h1 h2
    simp only [downloadFile, h1, jsFalsy, if_true, h2]
  · intro digest fetch st fid f s h1 hs hparse
    have hver : f.getVersion (jsParseInt s) = none := by rw [hparse]; rfl
    simp only [downloadFile, h1, jsFalsy, hs, Bool.false_eq_true, ite_false,
      Option.getD_some, hver, hparse]
    rfl

/-- Witness of C10 on a two-version file with selectors "2.9", "2abc" and
"latest". -/
theorem version_selector_truncation_witness :
    (∃ v, FileMetadata.getVersion
        { fileId := "f1", originalFileName := "a.txt", owner := "alice",
          isActive := true,
          versions := [{ versionNumber := 1, sha256Hash := "[1]",
                         ipfsHash := "Q[1]", fileSize := 1,
                         mimeType := "text/plain", uploadedBy := "alice" },
                       { versionNumber := 2, sha256Hash := "[2]",
                         ipfsHash := "Q[2]", fileSize := 1,
                         mimeType := "text/plain", uploadedBy := "alice" }],
          tags := [], description := "" } (jsParseInt "2.9") = some v
      ∧ v ∈ [{ versionNumber := 1, sha256Hash := "[1]", ipfsHash := "Q[1]",
               fileSize := 1, mimeType := "text/plain",
               uploadedBy := "alice" : FileVersion },
             { versionNumber := 2, sha256Hash := "[2]", ipfsHash := "Q[2]",
               fileSize := 1, mimeType := "text/plain",
               uploadedBy := "alice" }]
      ∧ v.versionNumber = 2)
    ∧ FileMetadata.getVersion
        { fileId := "f1", originalFileName := "a.txt", owner := "alice",
          isActive := true,
          versions := [{ versionNumber := 1, sha256Hash := "[1]",
                         ipfsHash := "Q[1]", fileSize := 1,
                         mimeType := "text/plain", uploadedBy := "alice" }],
          tags := [], description := "" } (jsParseInt "latest") = none
    ∧ downloadFile (fun p => toString p) (fun _ => none)
        [{ fileId := "f1", originalFileName := "a.txt", owner := "alice",
           isActive := true,
           versions := [{ versionNumber := 1, sha256Hash := "[1]",
                          ipfsHash := "Q[1]", fileSize := 1,
                          mimeType := "text/plain",
                          uploadedBy := "alice" }],
           tags := [], description := "" }] "f1" none
      = sendVersion (fun p => toString p) (fun _ => none)
          { versionNumber := 1, sha256Hash := "[1]", ipfsHash := "Q[1]",
            fileSize := 1, mimeType := "text/plain", uploadedBy := "alice" }
    ∧ downloadFile (fun p => toString p) (fun _ => none)
        [{ fileId := "f1", originalFileName := "a.txt", owner := "alice",
           isActive := true,
           versions := [{ versionNumber := 1, sha256Hash := "[1]",
                          ipfsHash := "Q[1]", fileSize := 1,
                          mimeType := "text/plain",
                          uploadedBy := "alice" }],
           tags := [], description := "" }] "f1" (some "latest")
      = .versionNotFound none := by
  refine ⟨?_, ?_, ?_, ?_⟩
  · exact version_selector_truncation.2.1
      { fileId := "f1", originalFileName := "a.txt", owner := "alice",
        isActive := true,
        versions := [{ versionNumber := 1, sha256Hash := "[1]",
                       ipfsHash := "Q[1]", fileSize := 1,
                       mimeType := "text/plain", uploadedBy := "alice" },
                     { versionNumber := 2, sha256Hash := "[2]",
                       ipfsHash := "Q[2]", fileSize := 1,
                       mimeType := "text/plain", uploadedBy := "alice" }],
        tags := [], description := "" } "2.9" 2 (by decide) (by decide)
      (by decide) (by decide)
  · exact version_selector_truncation.2.2.1
      { fileId := "f1", originalFileName := "a.txt", owner := "alice",
        isActive := true,
        versions := [{ versionNumber := 1, sha256Hash := "[1]",
                       ipfsHash := "Q[1]", fileSize := 1,
                       mimeType := "text/plain", uploadedBy := "alice" }],
        tags := [], description := "" } "latest" (by decide)
  · exact version_selector_truncation.2.2.2.1 (fun p => toString p)
      (fun _ => none)
      [{ fileId := "f1", originalFileName := "a.txt", owner := "alice",
         isActive := true,
         versions := [{ versionNumber := 1, sha256Hash := "[1]",
                        ipfsHash := "Q[1]", fileSize := 1,
                        mimeType := "text/plain", uploadedBy := "alice" }],
         tags := [], description := "" }] "f1"
      { fileId := "f1", originalFileName := "a.txt", owner := "alice",
        isActive := true,
        versions := [{ versionNumber := 1, sha256Hash := "[1]",
                       ipfsHash := "Q[1]", fileSize := 1,
                       mimeType := "text/plain", uploadedBy := "alice" }],
        tags := [], description := "" }
      { versionNumber := 1, sha256Hash := "[1]", ipfsHash := "Q[1]",
        fileSize := 1, mimeType := "text/plain", uploadedBy := "alice" }
      (by decide) (by decide)
  · exact version_selector_truncation.2.2.2.2 (fun p => toString p)
      (fun _ => none)
      [{ fileId := "f1", originalFileName := "a.txt", owner := "alice",
         isActive := true,
         versions := [{ versionNumber := 1, sha256Hash := "[1]",
                        ipfsHash := "Q[1]", fileSize := 1,
                        mimeType := "text/plain", uploadedBy := "alice" }],
         tags := [], description := "" }] "f1"
      { fileId := "f1", originalFileName := "a.txt", owner := "alice",
        isActive := true,
        versions := [{ versionNumber := 1, sha256Hash := "[1]",
                       ipfsHash := "Q[1]", fileSize := 1,
                       mimeType := "text/plain", uploadedBy := "alice" }],
        tags := [], description := "" }
      "latest" (by decide) (by decide) (by decide)

/-- C9: searchFiles answers invalidQuery exactly when all three filters
(text query, owner, tags) are JS-falsy; with at least one populated
filter it returns a results page whose every entry satisfies the built
search condition. -/
theorem searchFiles_invalid_query :
    (∀ (st : Store) (q ow tg : Option String) (page limit : Nat),
      searchFiles st q ow tg page limit = .invalidQuery
        ↔ (jsFalsy q = true ∧ jsFalsy ow = true ∧ jsFalsy tg = true))
    ∧ (∀ (st : Store) (q ow tg : Option String) (page limit : Nat),
        ¬(jsFalsy q = true ∧ jsFalsy ow = true ∧ jsFalsy tg = true) →
        ∃ lst cnt, searchFiles st q ow tg page limit = .results lst cnt
          ∧ ∀ f ∈ lst, searchCond q ow tg f = true) := by
  constructor
  · intro st q ow tg page limit
    by_cases hcond : (jsFalsy q && jsFalsy ow && jsFalsy tg) = true
    · simp only [searchFiles, hcond, if_true]
      simp only [Bool.and_eq_true] at hcond
      exact iff_of_true (by trivial) ⟨hcond.1.1, hcond.1.2, hcond.2⟩
    · simp only [searchFiles, hcond, Bool.false_eq_true, ite_false]
      refine iff_of_false (by simp) ?_
      intro hcontra
      exact hcond (by simp [Bool.and_eq_true, hcontra.1, hcontra.2.1,
        hcontra.2.2])
  · intro st q ow tg page limit hpop
    have hcond : ¬((jsFalsy q && jsFalsy ow && jsFalsy tg) = true) := by
      simp only [Bool.and_eq_true]
      intro hcontra
      exact hpop ⟨hcontra.1.1, hcontra.1.2, hcontra.2⟩
    simp only [searchFiles, hcond, Bool.false_eq_true, ite_false]
    refine ⟨_, _, rfl, ?_⟩
    intro f hf
    have hf' : f ∈ st.filter (searchCond q ow tg) :=
      List.mem_of_mem_drop (List.mem_of_mem_take hf)
    exact (List.mem_filter.mp hf').2

/-- Witness of C9: the empty query is invalid, an owner-only query
returns only matching active files. -/
theorem searchFiles_invalid_query_witness :
    (searchFiles
        [{ fileId := "f1", originalFileName := "a.txt", owner := "alice",
           isActive := true, versions := [], tags := [],
           description := "" }] none none none 1 10 = .invalidQuery
      ↔ (jsFalsy none = true ∧ jsFalsy none = true
          ∧ jsFalsy (none : Option String) = true))
    ∧ (∃ lst cnt, searchFiles
        [{ fileId := "f1", originalFileName := "a.txt", owner := "alice",
           isActive := true, versions := [], tags := [],
           description := "" }] none (some "alice") none 1 10
        = .results lst cnt
      ∧ ∀ f ∈ lst, searchCond none (some "alice") none f = true) := by
  constructor
  · exact searchFiles_invalid_query.1
      [{ fileId := "f1", originalFileName := "a.txt", owner := "alice",
         isActive := true, versions := [], tags := [],
         description := "" }] none none none 1 10
  · exact searchFiles_invalid_query.2
      [{ fileId := "f1", originalFileName := "a.txt", owner := "alice",
         isActive := true, versions := [], tags := [],
         description := "" }] none (some "alice") none 1 10 (by decide)

/-- C4 (refuting the claimed serialization): in the legal event-loop
interleaving where both findOne fetches complete before either save (the
awaited content-store upload sits between them), two concurrent
addNewVersion calls with distinct payloads BOTH report success with the
SAME versionNumber 2, and the final store holds a single file with only
versions numbered 1 and 2 — one append is silently overwritten. The
claimed outcome (exactly one winner of 2, the loser retrying with 3 or
failing with a conflict error, leaving 3 contiguous versions) does not
hold: the code takes no lock, no compare-and-swap and has no
ConcurrentModification error. -/
theorem appendVersion_race_both_win :
    addNewVersionRace (fun p => toString p) (fun p => "Q" ++ toString p)
      [{ fileId := "f1", originalFileName := "a.txt", owner := "alice",
         isActive := true,
         versions := [{ versionNumber := 1, sha256Hash := "[0]",
                        ipfsHash := "Q[0]", fileSize := 1,
                        mimeType := "text/plain", uploadedBy := "alice" }],
         tags := [], description := "" }] [] "f1"
      { buffer := [1], originalname := "a.txt", mimetype := "text/plain",
        size := 1 }
      { buffer := [2], originalname := "a.txt", mimetype := "text/plain",
        size := 1 }
      "alice" "bob"
      = (.added 2 "[1]" "Q[1]", .added 2 "[2]" "Q[2]",
         [{ fileId := "f1", originalFileName := "a.txt", owner := "alice",
            isActive := true,
            versions := [{ versionNumber := 1, sha256Hash := "[0]",
                           ipfsHash := "Q[0]", fileSize := 1,
                           mimeType := "text/plain",
                           uploadedBy := "alice" },
                         { versionNumber := 2, sha256Hash := "[2]",
                           ipfsHash := "Q[2]", fileSize := 1,
                           mimeType := "text/plain",
                           uploadedBy := "bob" }],
            tags := [], description := "" }], [[1], [2]]) := by
  decide

/-- C8 (amended): uploadFile consumes exactly one generated fileId and
never checks it against the store before saving; a collision of that
single id surfaces as the generic persistError of the unique-index save
rejection (there is no IdGenerationExhausted and no retry), while any
successful upload implies the drawn id collided with nothing, so no
successful CreateFile persists a colliding fileId. -/
theorem createFile_single_id_no_retry :
    (∀ (digest ipfsAddr : Payload → String) (fid : String) (st : Store)
        (cs : List Payload) (req : UploadReq) (file : UploadedFile),
      req.file = some file → (req.owner == "") = false →
      findByHash st (digest file.buffer) = none →
      (st.any (fun f => f.fileId == fid)) = true →
      uploadFile digest ipfsAddr fid st cs req
        = (.persistError, st, cs ++ [file.buffer]))
    ∧ (∀ (digest ipfsAddr : Payload → String) (fid : String) (st : Store)
          (cs : List Payload) (req : UploadReq) (r1 r2 r3 : String) (n : Nat)
          (st' : Store) (cs' : List Payload),
        uploadFile digest ipfsAddr fid st cs req
          = (.created r1 r2 r3 n, st', cs') →
        (∀ g ∈ st, (g.fileId == fid) = false) ∧ r1 = fid
        ∧ ∃ file, req.file = some file
            ∧ st' = st ++ [newFileMetadata digest ipfsAddr fid file req]) := by
  constructor
  · intro digest ipfsAddr fid st cs req file h1 h2 h3 h4
    exact uploadFile_idCollision digest ipfsAddr fid st cs req file h1 h2 h3 h4
  · intro digest ipfsAddr fid st cs req r1 r2 r3 n st' cs' h
    cases hfile : req.file with
    | none =>
      rw [uploadFile_noFile digest ipfsAddr fid st cs req hfile] at h
      simp at h
    | some file =>
      by_cases how : (req.owner == "") = true
      · rw [uploadFile_noOwner digest ipfsAddr fid st cs req file hfile
          how] at h
        simp at h
      · rw [Bool.not_eq_true] at how
        cases hdup : findByHash st (digest file.buffer) with
        | some g =>
          rw [uploadFile_dupContent digest ipfsAddr fid st cs req file g
            hfile how hdup] at h
          simp at h
        | none =>
          by_cases hcol : (st.any (fun f => f.fileId == fid)) = true
          · rw [uploadFile_idCollision digest ipfsAddr fid st cs req file
              hfile how hdup hcol] at h
            simp at h
          · rw [Bool.not_eq_true] at hcol
            rw [uploadFile_created digest ipfsAddr fid st cs req file hfile
              how hdup hcol] at h
            simp only [Prod.mk.injEq, UploadResult.created.injEq] at h
            refine ⟨?_, h.1.1.symm, file, rfl, h.2.1.symm⟩
            intro g hg
            simpa using List.any_eq_false.mp hcol g hg

/-- Witness of C8 (amended) at concrete collision and success runs. -/
theorem createFile_single_id_no_retry_witness :
    (uploadFile (fun p => toString p) (fun p => "Q" ++ toString p) "aaa"
        [{ fileId := "aaa", originalFileName := "a.txt", owner := "alice",
           isActive := true,
           versions := [{ versionNumber := 1, sha256Hash := "[9]",
                          ipfsHash := "Q[9]", fileSize := 1,
                          mimeType := "text/plain",
                          uploadedBy := "alice" }],
           tags := [], description := "" }] []
        { file := some { buffer := [2], originalname := "c.txt",
                         mimetype := "text/plain", size := 1 },
          owner := "carol", description := none, tags := none }
      = (.persistError,
         [{ fileId := "aaa", originalFileName := "a.txt", owner := "alice",
            isActive := true,
            versions := [{ versionNumber := 1, sha256Hash := "[9]",
                           ipfsHash := "Q[9]", fileSize := 1,
                           mimeType := "text/plain",
                           uploadedBy := "alice" }],
            tags := [], description := "" }], [[2]]))
    ∧ ((∀ g ∈ ([] : Store), (g.fileId == "bbb") = false) ∧ "bbb" = "bbb"
        ∧ ∃ file,
          ({ file := some { buffer := [2], originalname := "c.txt",
                            mimetype := "text/plain", size := 1 },
             owner := "carol", description := none,
             tags := none } : UploadReq).file = some file
          ∧ [newFileMetadata (fun p => toString p)
               (fun p => "Q" ++ toString p) "bbb"
               { buffer := [2], originalname := "c.txt",
                 mimetype := "text/plain", size := 1 }
               { file := some { buffer := [2], originalname := "c.txt",
                                mimetype := "text/plain", size := 1 },
                 owner := "carol", description := none, tags := none }]
            = [] ++ [newFileMetadata (fun p => toString p)
               (fun p => "Q" ++ toString p) "bbb" file
               { file := some { buffer := [2], originalname := "c.txt",
                                mimetype := "text/plain", size := 1 },
                 owner := "carol", description := none, tags := none }]) := by
  constructor
  · exact createFile_single_id_no_retry.1 (fun p => toString p)
      (fun p => "Q" ++ toString p) "aaa"
      [{ fileId := "aaa", originalFileName := "a.txt", owner := "alice",
         isActive := true,
         versions := [{ versionNumber := 1, sha256Hash := "[9]",
                        ipfsHash := "Q[9]", fileSize := 1,
                        mimeType := "text/plain", uploadedBy := "alice" }],
         tags := [], description := "" }] []
      { file := some { buffer := [2], originalname := "c.txt",
                       mimetype := "text/plain", size := 1 },
        owner := "carol", description := none, tags := none }
      { buffer := [2], originalname := "c.txt", mimetype := "text/plain",
        size := 1 }
      rfl (by decide) (by decide) (by decide)
  · exact createFile_single_id_no_retry.2 (fun p => toString p)
      (fun p => "Q" ++ toString p) "bbb" [] []
      { file := some { buffer := [2], originalname := "c.txt",
                       mimetype := "text/plain", size := 1 },
        owner := "carol", description := none, tags := none }
      "bbb" "[2]" "Q[2]" 1
      [newFileMetadata (fun p => toString p) (fun p => "Q" ++ toString p)
        "bbb"
        { buffer := [2], originalname := "c.txt", mimetype := "text/plain",
          size := 1 }
        { file := some { buffer := [2], originalname := "c.txt",
                         mimetype := "text/plain", size := 1 },
          owner := "carol", description := none, tags := none }] [[2]]
      (by decide)

/-- C8 counterexample: with a stored file under fileId "aaa" and the
single generator output colliding ("aaa"), uploadFile fails with the
generic persistError — no retry with a fresh id happens (the identical
request with the next id "bbb" would have succeeded) and no
IdGenerationExhausted outcome exists in the code. -/
theorem createFile_id_retry_counterexample :
    uploadFile (fun p => toString p) (fun p => "Q" ++ toString p) "aaa"
      [{ fileId := "aaa", originalFileName := "a.txt", owner := "alice",
         isActive := true,
         versions := [{ versionNumber := 1, sha256Hash := "[9]",
                        ipfsHash := "Q[9]", fileSize := 1,
                        mimeType := "text/plain", uploadedBy := "alice" }],
         tags := [], description := "" }] []
      { file := some { buffer := [2], originalname := "c.txt",
                       mimetype := "text/plain", size := 1 },
        owner := "carol", description := none, tags := none }
      = (.persistError,
         [{ fileId := "aaa", originalFileName := "a.txt", owner := "alice",
            isActive := true,
            versions := [{ versionNumber := 1, sha256Hash := "[9]",
                           ipfsHash := "Q[9]", fileSize := 1,
                           mimeType := "text/plain",
                           uploadedBy := "alice" }],
            tags := [], description := "" }], [[2]])
    ∧ (∃ g, uploadFile (fun p => toString p) (fun p => "Q" ++ toString p)
        "bbb"
        [{ fileId := "aaa", originalFileName := "a.txt", owner := "alice",
           isActive := true,
           versions := [{ versionNumber := 1, sha256Hash := "[9]",
                          ipfsHash := "Q[9]", fileSize := 1,
                          mimeType := "text/plain",
                          uploadedBy := "alice" }],
           tags := [], description := "" }] []
        { file := some { buffer := [2], originalname := "c.txt",
                         mimetype := "text/plain", size := 1 },
          owner := "carol", description := none, tags := none }
        = (.created "bbb" "[2]" "Q[2]" 1,
           [{ fileId := "aaa", originalFileName := "a.txt",
              owner := "alice", isActive := true,
              versions := [{ versionNumber := 1, sha256Hash := "[9]",
                             ipfsHash := "Q[9]", fileSize := 1,
                             mimeType := "text/plain",
                             uploadedBy := "alice" }],
              tags := [], description := "" }, g], [[2]])) := by
  refine ⟨by decide, newFileMetadata (fun p => toString p)
    (fun p => "Q" ++ toString p) "bbb"
    { buffer := [2], originalname := "c.txt", mimetype := "text/plain",
      size := 1 }
    { file := some { buffer := [2], originalname := "c.txt",
                     mimetype := "text/plain", size := 1 },
      owner := "carol", description := none, tags := none }, by decide⟩

end FileManager
